import Mathlib

/-!
Shallow embedding of the retrieval-provider core of the droplet repository:
the retrieval deal handler (`UnsealData`, `CancelDeal`, `Error`), the
provider request validator (`validatePull`, `acceptDeal`) and the payment
channel voucher selector (`BestSpendableByLane`).  External collaborators
(deal repositories, the piece storage manager, the gateway market client,
the data-transfer layer) are modelled as oracles: records of the results
their successive calls produce.  Go errors are modelled as an inductive
tree that records wrapping (`fmt.Errorf` with `%w`), so that predicates in
the style of `errors.Is` can walk the chain.
-/

namespace Droplet

/-- Go `error` values.  `base` is an opaque error from a collaborator;
dedicated constructors mark the sentinel errors the code compares against
(`statemachine.ErrTerminated`, `repo.ErrNotFound`, `context.Canceled`) and
each `fmt.Errorf("...: %w", ...)` wrapping site of the source. -/
inductive GoErr where
  | base (tag : Nat)
  | terminated
  | notFound
  | ctxCanceled
  | reasonErr (reason : String)
  | wrapUnseal (e : GoErr)
  | wrapUnsealFail (e : GoErr)
  | wrapUnsealFailNil
  | wrapFindWrite (e : GoErr)
  | wrapPieceTransfer (e : GoErr)
deriving DecidableEq, Repr

/-- `fmt.Errorf("unseal piece %s fail: %w", pieceCid, err)` where `err` may
itself be nil (wrapping nil still produces a non-nil error). -/
def GoErr.wrapFail : Option GoErr → GoErr
  | some e => .wrapUnsealFail e
  | none => .wrapUnsealFailNil

/-- `errors.Is(e, statemachine.ErrTerminated)`: walk the wrap chain. -/
def GoErr.isTerminated : GoErr → Bool
  | .terminated => true
  | .wrapUnseal e => e.isTerminated
  | .wrapUnsealFail e => e.isTerminated
  | .wrapFindWrite e => e.isTerminated
  | .wrapPieceTransfer e => e.isTerminated
  | _ => false

/-- `errors.Is(e, repo.ErrNotFound)`: walk the wrap chain. -/
def GoErr.isNotFound : GoErr → Bool
  | .notFound => true
  | .wrapUnseal e => e.isNotFound
  | .wrapUnsealFail e => e.isNotFound
  | .wrapFindWrite e => e.isNotFound
  | .wrapPieceTransfer e => e.isNotFound
  | _ => false

/-- `retrievalmarket.DealStatus` values used by this core.  `new` is the
zero value (`DealStatusNew = 0`). -/
inductive DealStatus where
  | new
  | unsealing
  | unsealed
  | cancelled
  | completed
  | errored
  | accepted
  | fundsNeededUnseal
  | rejected
  | dealNotFound
deriving DecidableEq, Repr

/-- `gtypes.UnsealState`.  `unset` is the zero value, which is what a
failed RPC call yields alongside its error. -/
inductive UnsealState where
  | unset
  | setUp
  | unsealing
  | finished
  | failed
deriving DecidableEq, Repr

/-- The retrieval deal proposal (`retrievalmarket.DealProposal`):
identifiers plus the negotiated terms.  Content identifiers and peer
identifiers are modelled as naturals, token amounts as integers. -/
structure DealProposal where
  id : Nat
  payloadCID : Nat
  pieceCID : Option Nat
  selectorSpecified : Bool
  selectorRaw : List Nat
  pricePerByte : Int
  paymentInterval : Nat
  paymentIntervalIncrease : Nat
  unsealPrice : Int
deriving DecidableEq, Repr

/-- `mktypes.ProviderDealState`: one retrieval deal, with the embedded
proposal.  `message` holds the error whose text was stored (`none` when
the field was never written); `fundsReceived` is `none` while the Go field
still holds the zero-value token amount (it was never explicitly set). -/
structure ProviderDealState where
  proposal : DealProposal
  receiver : Nat
  legacyProtocol : Bool
  currentInterval : Nat
  selStorageProposalCid : Option Nat
  status : DealStatus
  message : Option GoErr
  totalSent : Nat
  fundsReceived : Option Int
  channelID : Option Nat
deriving DecidableEq, Repr

/-! ## Retrieval Deal Handler -/

/-- Oracle for one `CancelDeal` run: the results of `env.DeleteStore`,
`env.CloseDataTransfer` (consulted only when a channel exists) and the one
`SaveDeal` the call performs (either inside `Error` or at the end). -/
structure CancelEnv where
  deleteStoreErr : Option GoErr
  closeErr : Option GoErr
  saveErr : Option GoErr
deriving DecidableEq, Repr

/-- Result of `CancelDeal`/`Error`: returned error, final in-memory deal,
the snapshots passed to `SaveDeal` in order, and whether
`CloseDataTransfer` was called. -/
structure CancelResult where
  err : Option GoErr
  deal : ProviderDealState
  saved : List ProviderDealState
  closeCalled : Bool
deriving DecidableEq, Repr

/-- `RetrievalDealHandler.Error`: set status `Errored`, attach the error
message when the error is non-nil, persist; returns `SaveDeal`'s result. -/
def Error (saveErr : Option GoErr) (deal : ProviderDealState) (e : Option GoErr) :
    Option GoErr × ProviderDealState :=
  let deal' := { deal with
    status := .errored
    message := match e with
      | some _ => e
      | none => deal.message }
  (saveErr, deal')

/-- `RetrievalDealHandler.CancelDeal`: delete the local store (failure
routes through `Error`); close the transfer channel when one exists,
tolerating `statemachine.ErrTerminated` (any other close failure routes
through `Error`); set status `Cancelled` and persist. -/
def CancelDeal (env : CancelEnv) (deal : ProviderDealState) : CancelResult :=
  match env.deleteStoreErr with
  | some _ =>
    let (e, d) := Error env.saveErr deal none
    ⟨e, d, [d], false⟩
  | none =>
    match deal.channelID with
    | some _ =>
      match env.closeErr with
      | some ce =>
        if ce.isTerminated then
          let d := { deal with status := .cancelled }
          ⟨env.saveErr, d, [d], true⟩
        else
          let (e, d) := Error env.saveErr deal none
          ⟨e, d, [d], true⟩
      | none =>
        let d := { deal with status := .cancelled }
        ⟨env.saveErr, d, [d], true⟩
    | none =>
      let d := { deal with status := .cancelled }
      ⟨env.saveErr, d, [d], false⟩

/-- One result of `gatewayMarketClient.SectorsUnsealPiece`: the returned
unseal state together with the returned error (`none` on success; a failed
RPC call yields the zero state `unset` alongside its error). -/
structure UnsealCallResult where
  state : UnsealState
  err : Option GoErr
deriving DecidableEq, Repr

/-- What the `select` at the bottom of the polling loop yields: the 5-minute
ticker fires, or the 12-hour deadline context is done (`parentCancelled`
records whether the parent `ctx` — whose `Err()` the code returns — was
itself cancelled, as opposed to only the deadline having expired). -/
inductive LoopEvent where
  | tick
  | deadline (parentCancelled : Bool)
deriving DecidableEq, Repr

/-- Outcome of the `CheckLoop` polling loop: `success` means
`break CheckLoop` on a `finished` state; `ret` is an early `return` with
the function-level `err` at that point (note it can be `none`);
`outOfTrace` is a model artifact meaning the supplied call trace was
exhausted before the loop exited.  Each carries the number of remote
unseal calls made. -/
inductive LoopRes where
  | success (calls : Nat)
  | ret (e : Option GoErr) (calls : Nat)
  | outOfTrace (calls : Nat)
deriving DecidableEq, Repr

/-- `errRetry`: the fixed transient-failure bound of the polling loop. -/
def errRetry : Nat := 5

/-- The `CheckLoop` of `UnsealData`: each iteration calls the remote
unseal service (consuming the head of `calls`); an error wraps it and
increments the retry counter, returning once the counter exceeds
`errRetry`; then the state switch (`failed` is a hard failure, `finished`
breaks out), then the `select` on ticker versus deadline (the deadline
branch returns the parent context's `Err()`: `ctxCanceled` when the parent
was cancelled and `none` when only the deadline expired). -/
def checkLoop (events : Nat → LoopEvent) :
    List UnsealCallResult → Nat → Nat → Nat → LoopRes
  | [], _, _, n => .outOfTrace n
  | c :: cs, evIdx, cnt, n =>
    let step : Option GoErr → Nat → LoopRes := fun err cnt' =>
      match c.state with
      | .failed => .ret (some (.wrapFail err)) (n + 1)
      | .finished => .success (n + 1)
      | _ =>
        match events evIdx with
        | .tick => checkLoop events cs (evIdx + 1) cnt' (n + 1)
        | .deadline parentCancelled =>
          .ret (if parentCancelled then some GoErr.ctxCanceled else none) (n + 1)
    match c.err with
    | some e0 =>
      if cnt + 1 > errRetry then .ret (some (.wrapUnseal e0)) (n + 1)
      else step (some (.wrapUnseal e0)) (cnt + 1)
    | none => step none cnt

/-- Oracle for one `UnsealData` run.  `saveErr i` is the result of the
i-th `retrievalDealStore.SaveDeal` call; `findReadErr` is
`FindStorageForRead`'s error (`none` means a backend holding the piece was
found); `unsealCalls` and `selectEvents` drive the polling loop; `cancel`
is consumed by the `CancelDeal` run on blockstore-preparation failure. -/
structure UnsealEnv where
  saveErr : Nat → Option GoErr
  getDealErr : Option GoErr
  findReadErr : Option GoErr
  findWriteErr : Option GoErr
  pieceTransferErr : Option GoErr
  unsealCalls : List UnsealCallResult
  selectEvents : Nat → LoopEvent
  prepareErr : Option GoErr
  resumeErr : Option GoErr
  cancel : CancelEnv

/-- Result of `UnsealData`: `ok = false` is the model artifact of an
exhausted polling-loop trace; otherwise the returned error, the final
in-memory deal, the `SaveDeal` snapshots in order, the number of remote
unseal calls, and which collaborators were invoked. -/
structure UnsealResult where
  ok : Bool
  err : Option GoErr
  deal : ProviderDealState
  saved : List ProviderDealState
  remoteCalls : Nat
  findWriteCalled : Bool
  prepareCalled : Bool
  resumeCalled : Bool
  cancelCalled : Bool
deriving DecidableEq, Repr

/-- The tail of `UnsealData` after the piece is available (fast path or
successful unseal): `PrepareBlockstore` (failure runs `CancelDeal` and
returns its result), persist `Unsealed`, resume the transfer when a
channel exists (resume failure flips the in-memory status to `Errored`),
and a final `SaveDeal` whose result is returned. -/
def finishPhase (env : UnsealEnv) (deal : ProviderDealState)
    (saved : List ProviderDealState) (remoteCalls : Nat) (fw : Bool) : UnsealResult :=
  match env.prepareErr with
  | some _ =>
    let c := CancelDeal env.cancel deal
    ⟨true, c.err, c.deal, saved ++ c.saved, remoteCalls, fw, true, false, true⟩
  | none =>
    let deal1 := { deal with status := DealStatus.unsealed }
    match env.saveErr 1 with
    | some e => ⟨true, some e, deal1, saved ++ [deal1], remoteCalls, fw, true, false, false⟩
    | none =>
      match deal1.channelID with
      | some _ =>
        match env.resumeErr with
        | some _ =>
          let deal2 := { deal1 with status := DealStatus.errored }
          ⟨true, env.saveErr 2, deal2, saved ++ [deal1, deal2], remoteCalls, fw, true, true, false⟩
        | none =>
          ⟨true, env.saveErr 2, deal1, saved ++ [deal1, deal1], remoteCalls, fw, true, true, false⟩
      | none =>
        ⟨true, env.saveErr 2, deal1, saved ++ [deal1, deal1], remoteCalls, fw, true, false, false⟩

/-- `RetrievalDealHandler.UnsealData`: persist `Unsealing`, resolve the
storage deal, probe `FindStorageForRead` (an error is only logged and the
unseal path is taken); on the unseal path select a write backend, obtain a
piece transfer endpoint and drive `checkLoop`; then `finishPhase`. -/
def UnsealData (env : UnsealEnv) (deal0 : ProviderDealState) : UnsealResult :=
  let deal := { deal0 with status := DealStatus.unsealing }
  let saved := [deal]
  match env.saveErr 0 with
  | some e => ⟨true, some e, deal, saved, 0, false, false, false, false⟩
  | none =>
    match env.getDealErr with
    | some e => ⟨true, some e, deal, saved, 0, false, false, false, false⟩
    | none =>
      match env.findReadErr with
      | none => finishPhase env deal saved 0 false
      | some _ =>
        match env.findWriteErr with
        | some e => ⟨true, some (.wrapFindWrite e), deal, saved, 0, true, false, false, false⟩
        | none =>
          match env.pieceTransferErr with
          | some e => ⟨true, some (.wrapPieceTransfer e), deal, saved, 0, true, false, false, false⟩
          | none =>
            match checkLoop env.selectEvents env.unsealCalls 0 0 0 with
            | .outOfTrace n => ⟨false, none, deal, saved, n, true, false, false, false⟩
            | .ret e n => ⟨true, e, deal, saved, n, true, false, false, false⟩
            | .success n => finishPhase env deal saved n true

/-! ## Provider Request Validator -/

/-- `types.RetrievalAsk`: a provider's published retrieval terms. -/
structure RetrievalAsk where
  pricePerByte : Int
  unsealPrice : Int
  paymentInterval : Nat
  paymentIntervalIncrease : Nat
deriving DecidableEq, Repr

/-- A candidate storage deal returned by `GetPieceInfoFromCid`: its
provider address and proposal CID. -/
structure MinerDeal where
  provider : Nat
  proposalCid : Nat
deriving DecidableEq, Repr

/-- The outcome of `runDealDecisionLogic` (the pluggable deal filter; a
nil filter behaves as `⟨true, "", none⟩`). -/
structure PolicyOutcome where
  accepted : Bool
  reason : String
  err : Option GoErr
deriving DecidableEq, Repr

/-- Oracle for one `validatePull`/`acceptDeal` run.  `minerCfg p` is the
`MinerProviderConfig` lookup for provider `p`: `none` models a lookup
error, `some b` a success with `b` recording whether the configured
retrieval payment address is empty.  `getAsk p` is `retrievalAsk.GetAsk`. -/
structure ValidatorEnv where
  pieceInfo : Except GoErr (List MinerDeal)
  minerCfg : Nat → Option Bool
  getAsk : Nat → Except GoErr RetrievalAsk
  policy : PolicyOutcome
  saveErr : Option GoErr

/-- `retrievalmarket.DealResponse`.  `paymentOwed`/`message` are `none`
while the Go fields still hold their zero values (never set). -/
structure DealResponse where
  id : Nat
  status : DealStatus
  paymentOwed : Option Int
  message : Option GoErr
deriving DecidableEq, Repr

/-- The error `validatePull` returns: either a Go error, or the
`datatransfer.ErrPause` sentinel instructing the transport to pause. -/
inductive VPErr where
  | goErr (e : GoErr)
  | pause
deriving DecidableEq, Repr

/-- Result of `validatePull`: the response (or `none`), the returned
error, the deal record passed to `SaveDeal` (`none` when nothing was
persisted), and whether `acceptDeal` ran. -/
structure VPResult where
  response : Option DealResponse
  err : Option VPErr
  savedDeal : Option ProviderDealState
  acceptRan : Bool
deriving DecidableEq, Repr

/-- Stand-in for the dagcbor encoding of
`selectorparse.CommonSelector_ExploreAllRecursively` (an opaque constant
byte string; only equality with it matters). -/
def allSelectorBytes : List Nat := [0]

/-- The ask-scan loop of `acceptDeal`: for each candidate storage deal,
skip it when the provider config lookup fails or the payment address is
empty; otherwise record its proposal CID in `SelStorageProposalCid`, then
try to fetch the provider's ask — on failure log and continue, on success
stop.  (The loop-local `err` is shadowed, so the scan itself contributes
no error; `acceptDeal` returns a nil error when no ask was found.) -/
def askScan (env : ValidatorEnv) :
    List MinerDeal → ProviderDealState → ProviderDealState × Option RetrievalAsk
  | [], deal => (deal, none)
  | md :: mds, deal =>
    match env.minerCfg md.provider with
    | none => askScan env mds deal
    | some true => askScan env mds deal
    | some false =>
      let deal' := { deal with selStorageProposalCid := some md.proposalCid }
      match env.getAsk md.provider with
      | .error _ => askScan env mds deal'
      | .ok a => (deal', some a)

/-- Modelled from the spec: `CheckDealParams` is repository code not under
`src/` (only its caller is).  Per §4.3 step d and §7, a requested term
less favorable than the ask's published term rejects the deal: a
price-per-byte or unseal price below the published one, or a payment
interval or interval-increase above the published one. -/
def CheckDealParams (ask : RetrievalAsk) (pricePerByte : Int)
    (paymentInterval paymentIntervalIncrease : Nat) (unsealPrice : Int) : Option GoErr :=
  if pricePerByte < ask.pricePerByte then some (.reasonErr "price per byte too low")
  else if paymentInterval > ask.paymentInterval then some (.reasonErr "payment interval too large")
  else if paymentIntervalIncrease > ask.paymentIntervalIncrease then
    some (.reasonErr "payment interval increase too large")
  else if unsealPrice < ask.unsealPrice then some (.reasonErr "unseal price too small")
  else none

/-- `ProviderRequestValidator.acceptDeal`: resolve candidate storage deals
(`DealNotFound` when the piece is unknown, `Errored` on any other lookup
failure), scan them for an ask (no ask found is `Errored` — with a nil
error, because the scan's `err` is loop-local), check the deal parameters,
run the acceptance policy, then classify by the proposal's unseal price.
Returns the status, the error and the (possibly updated) deal. -/
def acceptDeal (env : ValidatorEnv) (deal : ProviderDealState) :
    DealStatus × Option GoErr × ProviderDealState :=
  match env.pieceInfo with
  | .error e => (if e.isNotFound then .dealNotFound else .errored, some e, deal)
  | .ok minerDeals =>
    match askScan env minerDeals deal with
    | (deal', none) => (.errored, none, deal')
    | (deal', some ask) =>
      match CheckDealParams ask deal'.proposal.pricePerByte deal'.proposal.paymentInterval
          deal'.proposal.paymentIntervalIncrease deal'.proposal.unsealPrice with
      | some e => (.rejected, some e, deal')
      | none =>
        match env.policy.err with
        | some e => (.errored, some e, deal')
        | none =>
          if !env.policy.accepted then (.rejected, some (.reasonErr env.policy.reason), deal')
          else if deal'.proposal.unsealPrice > 0 then (.fundsNeededUnseal, none, deal')
          else (.accepted, none, deal')

/-- The fresh deal record `validatePull` builds for a new request: all
runtime fields at their zero values, `CurrentInterval` from the
proposal's payment interval. -/
def mkPds (proposal : DealProposal) (receiver : Nat) (legacyProtocol : Bool) :
    ProviderDealState :=
  { proposal := proposal
    receiver := receiver
    legacyProtocol := legacyProtocol
    currentInterval := proposal.paymentInterval
    selStorageProposalCid := none
    status := .new
    message := none
    totalSent := 0
    fundsReceived := none
    channelID := none }

/-- `ProviderRequestValidator.validatePull`: reject on a payload-CID
mismatch, on a selector-encoding error, and on a selector mismatch (against
the proposal's selector, or the traverse-everything default when none was
specified); a restart request then returns the no-op decision; a new
request runs `acceptDeal`, builds the response (`PaymentOwed` set from the
deal's unseal price exactly when the status is `FundsNeededUnseal`),
returns early on an acceptance error, otherwise resets the counters
(`FundsReceived` only when no unseal payment is pending), persists the
record and returns the pause sentinel.  `selectorEnc` is the result of
dagcbor-encoding the incoming selector node. -/
def validatePull (env : ValidatorEnv) (isRestart : Bool) (proposal : DealProposal)
    (receiver : Nat) (legacyProtocol : Bool) (baseCid : Nat)
    (selectorEnc : Except GoErr (List Nat)) : VPResult :=
  if proposal.payloadCID ≠ baseCid then
    ⟨none, some (.goErr (.reasonErr "incorrect CID for this proposal")), none, false⟩
  else
    match selectorEnc with
    | .error e => ⟨none, some (.goErr e), none, false⟩
    | .ok enc =>
      let bytesCompare := if proposal.selectorSpecified then proposal.selectorRaw
        else allSelectorBytes
      if enc ≠ bytesCompare then
        ⟨none, some (.goErr (.reasonErr "incorrect selector for this proposal")), none, false⟩
      else if isRestart then ⟨none, none, none, false⟩
      else
        match acceptDeal env (mkPds proposal receiver legacyProtocol) with
        | (status, aerr, pds1) =>
          let response : DealResponse :=
            { id := proposal.id
              status := status
              paymentOwed := if status = DealStatus.fundsNeededUnseal
                then some pds1.proposal.unsealPrice else none
              message := none }
          match aerr with
          | some e => ⟨some { response with message := some e }, some (.goErr e), none, true⟩
          | none =>
            let pds2 := if pds1.proposal.unsealPrice > 0
              then { pds1 with status := DealStatus.fundsNeededUnseal, totalSent := 0 }
              else { pds1 with totalSent := 0, fundsReceived := some 0 }
            match env.saveErr with
            | some e => ⟨some { response with message := some e }, some (.goErr e), none, true⟩
            | none => ⟨some response, some .pause, some pds2, true⟩

/-! ## Voucher Selector -/

/-- `types.SignedVoucher`, restricted to the fields
`BestSpendableByLane` reads: the lane and the amount. -/
structure SignedVoucher where
  lane : Nat
  amount : Int
deriving DecidableEq, Repr

/-- Oracle for `BestSpendableByLane`: the voucher list for the channel and
the spendability check (per voucher). -/
structure PaychEnv where
  voucherList : Except GoErr (List SignedVoucher)
  checkSpendable : SignedVoucher → Except GoErr Bool

/-- Whether the spendability check succeeded and reported spendable. -/
def isSpendable (check : SignedVoucher → Except GoErr Bool) (v : SignedVoucher) : Bool :=
  match check v with
  | .ok true => true
  | _ => false

/-- The loop of `BestSpendableByLane`: check each voucher's spendability
(aborting on a check error) and keep, per lane, the voucher with the
strictly greatest amount seen so far (so ties keep the first seen). -/
def bestLoop (check : SignedVoucher → Except GoErr Bool) :
    List SignedVoucher → (Nat → Option SignedVoucher) →
    Except GoErr (Nat → Option SignedVoucher)
  | [], best => .ok best
  | v :: vs, best =>
    match check v with
    | .error e => .error e
    | .ok spendable =>
      if spendable then
        match best v.lane with
        | none => bestLoop check vs (fun l => if l = v.lane then some v else best l)
        | some u =>
          if v.amount > u.amount then
            bestLoop check vs (fun l => if l = v.lane then some v else best l)
          else bestLoop check vs best
      else bestLoop check vs best

/-- `paychmgr.BestSpendableByLane`: list the channel's vouchers and fold
`bestLoop` over them starting from the empty lane map. -/
def BestSpendableByLane (env : PaychEnv) : Except GoErr (Nat → Option SignedVoucher) :=
  match env.voucherList with
  | .error e => .error e
  | .ok vs => bestLoop env.checkSpendable vs (fun _ => none)

/-- Whether voucher `v` beats the current best `b` of its lane: `b` is
empty, or `v`'s amount is strictly greater. -/
def beats (v : SignedVoucher) : Option SignedVoucher → Bool
  | none => true
  | some u => v.amount > u.amount

/-- The single-lane view of `bestLoop`'s accumulator update: keep the
incoming voucher when it is in the lane, spendable, and strictly better
than the current best. -/
def best1 (check : SignedVoucher → Except GoErr Bool) (l : Nat) :
    List SignedVoucher → Option SignedVoucher → Option SignedVoucher
  | [], b => b
  | v :: vs, b =>
    if v.lane = l ∧ isSpendable check v = true ∧ beats v b = true then
      best1 check l vs (some v)
    else best1 check l vs b

/-! ## Concrete instances -/

/-- A `CancelEnv` in which every teardown call succeeds. -/
def cenv0 : CancelEnv := ⟨none, none, none⟩

/-- A benign proposal: payload CID 5, no explicit selector, zero prices,
payment interval and increase 10. -/
def prop0 : DealProposal :=
  { id := 1, payloadCID := 5, pieceCID := none, selectorSpecified := false,
    selectorRaw := [], pricePerByte := 0, paymentInterval := 10,
    paymentIntervalIncrease := 10, unsealPrice := 0 }

/-- A fresh deal for `prop0` (no transfer channel). -/
def deal0 : ProviderDealState := mkPds prop0 0 false

/-- A deal with an open transfer channel. -/
def dealCh : ProviderDealState := { deal0 with channelID := some 3 }

/-- An `UnsealEnv` in which every collaborator call succeeds and the piece
is already present in a backend. -/
def uenv0 : UnsealEnv :=
  { saveErr := fun _ => none, getDealErr := none, findReadErr := none,
    findWriteErr := none, pieceTransferErr := none, unsealCalls := [],
    selectEvents := fun _ => .tick, prepareErr := none, resumeErr := none,
    cancel := cenv0 }

/-- Piece absent; the first unseal poll succeeds with state `unsealing`;
then the 12-hour deadline context fires while the parent context is still
alive. -/
def envDeadline : UnsealEnv :=
  { uenv0 with
    findReadErr := some .notFound,
    unsealCalls := [⟨.unsealing, none⟩],
    selectEvents := fun _ => .deadline false }

/-- Same as `envDeadline`, but the parent context was cancelled. -/
def envCancelledCtx : UnsealEnv :=
  { envDeadline with selectEvents := fun _ => .deadline true }

/-- Fast path (piece present) but blockstore preparation fails; the
subsequent cancellation succeeds. -/
def envPrepFail : UnsealEnv := { uenv0 with prepareErr := some (GoErr.base 7) }

/-- A `CancelEnv` whose channel close reports the already-terminated
condition. -/
def cenvTerm : CancelEnv := ⟨none, some .terminated, none⟩

/-- An ask publishing unseal price 1 (other terms matching `prop0`). -/
def askC3 : RetrievalAsk := ⟨0, 1, 10, 10⟩

/-- `prop0` but offering unseal price 2 — more than `askC3` publishes. -/
def propC3 : DealProposal := { prop0 with unsealPrice := 2 }

/-- A validator oracle: one candidate storage deal from provider 1 with a
configured payment address, ask `askC3`, a policy that accepts, and a
persistence layer that succeeds. -/
def envV0 : ValidatorEnv :=
  { pieceInfo := .ok [⟨1, 9⟩]
    minerCfg := fun _ => some false
    getAsk := fun _ => .ok askC3
    policy := ⟨true, "", none⟩
    saveErr := none }

/-- An ask publishing unseal price 0. -/
def askFree : RetrievalAsk := ⟨0, 0, 10, 10⟩

/-- `envV0` with the free-unseal ask. -/
def envVFree : ValidatorEnv := { envV0 with getAsk := fun _ => .ok askFree }

/-- The spec's voucher-selector test vector: lane-1 vouchers of amounts 5
and 9, a lane-2 voucher of amount 3; lane-2 vouchers are not spendable. -/
def envW : PaychEnv :=
  ⟨.ok [⟨1, 5⟩, ⟨1, 9⟩, ⟨2, 3⟩], fun v => .ok (decide (v.lane ≠ 2))⟩

/-- Piece absent; five transient remote failures, then a successful call
reporting `finished`. -/
def envFive : UnsealEnv := { uenv0 with
  findReadErr := some .notFound
  unsealCalls := [⟨.unset, some (.base 0)⟩, ⟨.unset, some (.base 1)⟩, ⟨.unset, some (.base 2)⟩,
    ⟨.unset, some (.base 3)⟩, ⟨.unset, some (.base 4)⟩, ⟨.finished, none⟩] }

/-- Piece absent; six transient remote failures (a seventh, successful
call sits behind them in the trace and must never be reached). -/
def envSix : UnsealEnv := { uenv0 with
  findReadErr := some .notFound
  unsealCalls := [⟨.unset, some (.base 0)⟩, ⟨.unset, some (.base 1)⟩, ⟨.unset, some (.base 2)⟩,
    ⟨.unset, some (.base 3)⟩, ⟨.unset, some (.base 4)⟩, ⟨.unset, some (.base 5)⟩,
    ⟨.finished, none⟩] }

/-- The read probe fails with an error other than not-found. -/
def envProbeErr : UnsealEnv := { uenv0 with findReadErr := some (GoErr.base 9) }

/-! ## Retrieval Deal Handler: theorems -/

theorem finishPhase_findWriteCalled (env : UnsealEnv) (deal : ProviderDealState)
    (saved : List ProviderDealState) (n : Nat) (fw : Bool) :
    (finishPhase env deal saved n fw).findWriteCalled = fw := by
  unfold finishPhase
  cases env.prepareErr <;> cases env.saveErr 1 <;> cases h : deal.channelID <;>
    cases env.resumeErr <;> simp [h]

theorem finishPhase_remoteCalls (env : UnsealEnv) (deal : ProviderDealState)
    (saved : List ProviderDealState) (n : Nat) (fw : Bool) :
    (finishPhase env deal saved n fw).remoteCalls = n := by
  unfold finishPhase
  cases env.prepareErr <;> cases env.saveErr 1 <;> cases h : deal.channelID <;>
    cases env.resumeErr <;> simp [h]

theorem finishPhase_prepareCalled (env : UnsealEnv) (deal : ProviderDealState)
    (saved : List ProviderDealState) (n : Nat) (fw : Bool) :
    (finishPhase env deal saved n fw).prepareCalled = true := by
  unfold finishPhase
  cases env.prepareErr <;> cases env.saveErr 1 <;> cases h : deal.channelID <;>
    cases env.resumeErr <;> simp [h]

theorem finishPhase_ok (env : UnsealEnv) (deal : ProviderDealState)
    (saved : List ProviderDealState) (n : Nat) (fw : Bool) :
    (finishPhase env deal saved n fw).ok = true := by
  unfold finishPhase
  cases env.prepareErr <;> cases env.saveErr 1 <;> cases h : deal.channelID <;>
    cases env.resumeErr <;> simp [h]

theorem finishPhase_saved_unsealed (env : UnsealEnv) (deal : ProviderDealState)
    (saved : List ProviderDealState) (n : Nat) (fw : Bool)
    (h3 : env.prepareErr = none) (h4 : env.saveErr 1 = none) :
    ∃ d ∈ (finishPhase env deal saved n fw).saved, d.status = DealStatus.unsealed := by
  unfold finishPhase
  rw [h3, h4]
  cases h : deal.channelID <;> cases env.resumeErr <;>
    exact ⟨{ deal with status := DealStatus.unsealed }, by simp [h], rfl⟩

theorem finishPhase_congr (env env' : UnsealEnv) (deal : ProviderDealState)
    (saved : List ProviderDealState) (n : Nat) (fw : Bool)
    (h1 : env.saveErr = env'.saveErr) (h2 : env.prepareErr = env'.prepareErr)
    (h3 : env.resumeErr = env'.resumeErr) (h4 : env.cancel = env'.cancel) :
    finishPhase env deal saved n fw = finishPhase env' deal saved n fw := by
  unfold finishPhase
  rw [h1, h2, h3, h4]

/-- C7: `UnsealData` on a deal whose piece is already present in a backend
(the read probe succeeds) never calls the remote unseal service, never
even selects a write backend, and — with preparation and persistence
succeeding — persists status `Unsealed` directly. -/
theorem unsealData_fast_path (env : UnsealEnv) (deal : ProviderDealState)
    (h0 : env.saveErr 0 = none) (h1 : env.getDealErr = none)
    (h2 : env.findReadErr = none) (h3 : env.prepareErr = none)
    (h4 : env.saveErr 1 = none) :
    (UnsealData env deal).remoteCalls = 0 ∧
    (UnsealData env deal).findWriteCalled = false ∧
    (UnsealData env deal).ok = true ∧
    ∃ d ∈ (UnsealData env deal).saved, d.status = DealStatus.unsealed := by
  simp only [UnsealData, h0, h1, h2]
  exact ⟨finishPhase_remoteCalls .., finishPhase_findWriteCalled .., finishPhase_ok ..,
    finishPhase_saved_unsealed _ _ _ _ _ h3 h4⟩

/-- Witness for `unsealData_fast_path` at the all-success oracle. -/
theorem unsealData_fast_path_witness :
    (UnsealData uenv0 deal0).remoteCalls = 0 ∧
    (UnsealData uenv0 deal0).findWriteCalled = false ∧
    (UnsealData uenv0 deal0).ok = true ∧
    ∃ d ∈ (UnsealData uenv0 deal0).saved, d.status = DealStatus.unsealed :=
  unsealData_fast_path uenv0 deal0 rfl rfl rfl rfl rfl

/-- C10: an error from the read probe (`FindStorageForRead`) — whatever
it is — is only logged: `UnsealData` behaves exactly as on a not-found
probe, proceeds to write-backend selection, and the probe error is never
what it returns. -/
theorem unsealData_probe_error_ignored (env : UnsealEnv) (deal : ProviderDealState)
    (e : GoErr) (h0 : env.saveErr 0 = none) (h1 : env.getDealErr = none)
    (h2 : env.findReadErr = some e) :
    UnsealData env deal = UnsealData { env with findReadErr := some GoErr.notFound } deal ∧
    (UnsealData env deal).findWriteCalled = true := by
  constructor
  · simp only [UnsealData, h0, h1, h2]
    cases hw : env.findWriteErr with
    | some e2 => rfl
    | none =>
      cases ht : env.pieceTransferErr with
      | some e2 => rfl
      | none =>
        cases hl : checkLoop env.selectEvents env.unsealCalls 0 0 0 with
        | outOfTrace n => rfl
        | ret e2 n => rfl
        | success n => exact finishPhase_congr env _ _ _ _ _ rfl rfl rfl rfl
  · simp only [UnsealData, h0, h1, h2]
    cases hw : env.findWriteErr with
    | some e2 => simp
    | none =>
      cases ht : env.pieceTransferErr with
      | some e2 => simp
      | none =>
        cases hl : checkLoop env.selectEvents env.unsealCalls 0 0 0 with
        | outOfTrace n => simp [hl]
        | ret e2 n => simp [hl]
        | success n => simp [hl, finishPhase_findWriteCalled]

/-- Witness for `unsealData_probe_error_ignored` at a non-not-found probe
error. -/
theorem unsealData_probe_error_ignored_witness :
    UnsealData envProbeErr deal0 =
      UnsealData { envProbeErr with findReadErr := some GoErr.notFound } deal0 ∧
    (UnsealData envProbeErr deal0).findWriteCalled = true :=
  unsealData_probe_error_ignored envProbeErr deal0 (GoErr.base 9) rfl rfl rfl

/-- C1: with the piece absent and the loop reached, five transient remote
failures followed by a successful `finished` call exit the loop
successfully (the function proceeds to blockstore preparation after six
remote calls), while six transient failures make `UnsealData` return the
last wrapped error after exactly six remote calls — whatever sits behind
them in the trace is never called. -/
theorem unsealData_retry_bound (env : UnsealEnv) (deal : ProviderDealState)
    (e0 e1 e2 e3 e4 e5 : GoErr) (rest : List UnsealCallResult)
    (h0 : env.saveErr 0 = none) (h1 : env.getDealErr = none)
    (h2 : env.findReadErr = some GoErr.notFound)
    (h3 : env.findWriteErr = none) (h4 : env.pieceTransferErr = none)
    (hev : ∀ i, i < 5 → env.selectEvents i = LoopEvent.tick) :
    (env.unsealCalls = [⟨.unset, some e0⟩, ⟨.unset, some e1⟩, ⟨.unset, some e2⟩,
        ⟨.unset, some e3⟩, ⟨.unset, some e4⟩, ⟨.finished, none⟩] →
      (UnsealData env deal).ok = true ∧ (UnsealData env deal).remoteCalls = 6 ∧
        (UnsealData env deal).prepareCalled = true) ∧
    (env.unsealCalls = ⟨.unset, some e0⟩ :: ⟨.unset, some e1⟩ :: ⟨.unset, some e2⟩ ::
        ⟨.unset, some e3⟩ :: ⟨.unset, some e4⟩ :: ⟨.unset, some e5⟩ :: rest →
      (UnsealData env deal).ok = true ∧
        (UnsealData env deal).err = some (GoErr.wrapUnseal e5) ∧
        (UnsealData env deal).remoteCalls = 6 ∧
        (UnsealData env deal).prepareCalled = false) := by
  have he0 := hev 0 (by omega)
  have he1 := hev 1 (by omega)
  have he2 := hev 2 (by omega)
  have he3 := hev 3 (by omega)
  have he4 := hev 4 (by omega)
  constructor
  · intro hc
    have hl : checkLoop env.selectEvents env.unsealCalls 0 0 0 = .success 6 := by
      rw [hc]
      simp [checkLoop, errRetry, he0, he1, he2, he3, he4]
    simp only [UnsealData, h0, h1, h2, h3, h4, hl]
    exact ⟨finishPhase_ok .., finishPhase_remoteCalls .., finishPhase_prepareCalled ..⟩
  · intro hc
    have hl : checkLoop env.selectEvents env.unsealCalls 0 0 0 =
        .ret (some (GoErr.wrapUnseal e5)) 6 := by
      rw [hc]
      simp [checkLoop, errRetry, he0, he1, he2, he3, he4]
    simp [UnsealData, h0, h1, h2, h3, h4, hl]

/-- Witness for `unsealData_retry_bound`: five failures then success
reach preparation after six calls; six failures return the sixth error
after six calls, never touching the seventh trace entry. -/
theorem unsealData_retry_bound_witness :
    ((UnsealData envFive deal0).prepareCalled = true ∧
      (UnsealData envFive deal0).remoteCalls = 6) ∧
    ((UnsealData envSix deal0).err = some (GoErr.wrapUnseal (GoErr.base 5)) ∧
      (UnsealData envSix deal0).remoteCalls = 6 ∧
      (UnsealData envSix deal0).prepareCalled = false) := by
  have hA := (unsealData_retry_bound envFive deal0 (.base 0) (.base 1) (.base 2) (.base 3)
    (.base 4) (.base 5) [] rfl rfl rfl rfl rfl (fun i _ => rfl)).1 rfl
  have hB := (unsealData_retry_bound envSix deal0 (.base 0) (.base 1) (.base 2) (.base 3)
    (.base 4) (.base 5) [⟨.finished, none⟩] rfl rfl rfl rfl rfl (fun i _ => rfl)).2 rfl
  exact ⟨⟨hA.2.2, hA.2.1⟩, hB.2.1, hB.2.2.1, hB.2.2.2⟩

/-- C2 (code bug): when the 12-hour deadline context fires while the
parent context is still alive, `UnsealData` returns `ctx.Err()` of the
parent — a nil error — even though unsealing never completed and
`Unsealed` was never persisted; only an actual cancellation of the parent
context yields a non-nil error. -/
theorem unsealData_deadline_nil :
    (UnsealData envDeadline deal0).ok = true ∧
    (UnsealData envDeadline deal0).err = none ∧
    (UnsealData envDeadline deal0).remoteCalls = 1 ∧
    (UnsealData envDeadline deal0).prepareCalled = false ∧
    (∀ d ∈ (UnsealData envDeadline deal0).saved, d.status ≠ DealStatus.unsealed) ∧
    (UnsealData envCancelledCtx deal0).err = some GoErr.ctxCanceled := by
  decide

/-- C4 counterexample: blockstore preparation fails with `base 7`, the
cancellation procedure succeeds, and `UnsealData` returns nil — not the
preparation error. -/
theorem unsealData_prepare_error_dropped :
    envPrepFail.prepareErr = some (GoErr.base 7) ∧
    (UnsealData envPrepFail deal0).cancelCalled = true ∧
    (UnsealData envPrepFail deal0).err = none ∧
    (∃ d ∈ (UnsealData envPrepFail deal0).saved, d.status = DealStatus.cancelled) := by
  decide

/-- C4 (amended): when blockstore preparation fails, the deal is
transitioned via the cancellation procedure and `UnsealData` returns the
cancellation procedure's result — the preparation error itself is logged
but not returned. -/
theorem unsealData_prepare_error_cancels (env : UnsealEnv) (deal : ProviderDealState)
    (e : GoErr) (h0 : env.saveErr 0 = none) (h1 : env.getDealErr = none)
    (h2 : env.findReadErr = none) (h3 : env.prepareErr = some e) :
    (UnsealData env deal).cancelCalled = true ∧
    (UnsealData env deal).err =
      (CancelDeal env.cancel { deal with status := DealStatus.unsealing }).err ∧
    (UnsealData env deal).saved =
      { deal with status := DealStatus.unsealing } ::
        (CancelDeal env.cancel { deal with status := DealStatus.unsealing }).saved := by
  simp [UnsealData, finishPhase, h0, h1, h2, h3]

/-- Witness for `unsealData_prepare_error_cancels` at a concrete failing
preparation. -/
theorem unsealData_prepare_error_cancels_witness :
    (UnsealData envPrepFail deal0).cancelCalled = true ∧
    (UnsealData envPrepFail deal0).err =
      (CancelDeal envPrepFail.cancel { deal0 with status := DealStatus.unsealing }).err ∧
    (UnsealData envPrepFail deal0).saved =
      { deal0 with status := DealStatus.unsealing } ::
        (CancelDeal envPrepFail.cancel { deal0 with status := DealStatus.unsealing }).saved :=
  unsealData_prepare_error_cancels envPrepFail deal0 (GoErr.base 7) rfl rfl rfl rfl

/-- C6: `CancelDeal` tolerates an already-terminated transfer-channel
close — it still persists status `Cancelled` and returns only the
persistence result — while a store-deletion failure or any other close
failure routes through `Error`, persisting status `Errored`. -/
theorem cancelDeal_teardown (env : CancelEnv) (deal : ProviderDealState) :
    (∀ ce ch, deal.channelID = some ch → env.deleteStoreErr = none →
      env.closeErr = some ce → ce.isTerminated = true →
      (CancelDeal env deal).deal.status = DealStatus.cancelled ∧
      (CancelDeal env deal).saved = [{ deal with status := DealStatus.cancelled }] ∧
      (CancelDeal env deal).err = env.saveErr) ∧
    (∀ e, env.deleteStoreErr = some e →
      (CancelDeal env deal).deal.status = DealStatus.errored ∧
      (CancelDeal env deal).saved = [{ deal with status := DealStatus.errored }] ∧
      (CancelDeal env deal).err = env.saveErr) ∧
    (∀ ce ch, deal.channelID = some ch → env.deleteStoreErr = none →
      env.closeErr = some ce → ce.isTerminated = false →
      (CancelDeal env deal).deal.status = DealStatus.errored ∧
      (CancelDeal env deal).saved = [{ deal with status := DealStatus.errored }] ∧
      (CancelDeal env deal).err = env.saveErr) := by
  refine ⟨?_, ?_, ?_⟩
  · intro ce ch hch hd hc ht
    simp [CancelDeal, hd, hch, hc, ht]
  · intro e hd
    simp [CancelDeal, Error, hd]
  · intro ce ch hch hd hc ht
    simp [CancelDeal, Error, hd, hch, hc, ht]

/-- Witness for `cancelDeal_teardown`: a close reporting the terminated
condition still reaches `Cancelled` with the close error not surfaced. -/
theorem cancelDeal_teardown_witness :
    (CancelDeal cenvTerm dealCh).deal.status = DealStatus.cancelled ∧
    (CancelDeal cenvTerm dealCh).err = cenvTerm.saveErr := by
  have h := (cancelDeal_teardown cenvTerm dealCh).1 GoErr.terminated 3 rfl rfl rfl rfl
  exact ⟨h.1, h.2.2⟩

/-! ## Provider Request Validator: theorems -/

theorem askScan_shape (env : ValidatorEnv) :
    ∀ (mds : List MinerDeal) (deal : ProviderDealState),
    ∃ c, (askScan env mds deal).1 = { deal with selStorageProposalCid := c } := by
  intro mds
  induction mds with
  | nil => intro deal; exact ⟨deal.selStorageProposalCid, rfl⟩
  | cons md mds ih =>
    intro deal
    unfold askScan
    cases env.minerCfg md.provider with
    | none => exact ih deal
    | some b =>
      cases b with
      | true => exact ih deal
      | false =>
        cases env.getAsk md.provider with
        | error e =>
          obtain ⟨c, hc⟩ := ih { deal with selStorageProposalCid := some md.proposalCid }
          exact ⟨c, hc⟩
        | ok a => exact ⟨some md.proposalCid, rfl⟩

theorem acceptDeal_shape (env : ValidatorEnv) (deal : ProviderDealState) :
    ∃ c, (acceptDeal env deal).2.2 = { deal with selStorageProposalCid := c } := by
  cases hpi : env.pieceInfo with
  | error e => exact ⟨deal.selStorageProposalCid, by simp [acceptDeal, hpi]⟩
  | ok mds =>
    obtain ⟨c, hc⟩ := askScan_shape env mds deal
    refine ⟨c, ?_⟩
    simp only [acceptDeal, hpi]
    split
    · rename_i deal1 heq
      rw [heq] at hc
      simpa using hc
    · rename_i deal1 ask heq
      rw [heq] at hc
      repeat' split
      all_goals simpa using hc

theorem CheckDealParams_unseal_le (ask : RetrievalAsk) (ppb : Int) (pi2 pii : Nat)
    (up : Int) (h : CheckDealParams ask ppb pi2 pii up = none) : ask.unsealPrice ≤ up := by
  unfold CheckDealParams at h
  split_ifs at h with h1 h2 h3 h4
  omega

/-- C8 counterexample: a restart request whose base CID does not match
the proposal's payload CID is answered with an error, not the no-op
decision. -/
theorem validatePull_restart_cid_mismatch :
    (validatePull envV0 true prop0 0 false 6 (.ok allSelectorBytes)).err ≠ none ∧
    (validatePull envV0 true prop0 0 false 6 (.ok allSelectorBytes)).response = none := by
  decide

/-- C8 (amended): a restart request that passes the CID and selector
checks always yields the no-op decision — no response, no error, no
persisted record, and `acceptDeal` is never run. -/
theorem validatePull_restart_noop (env : ValidatorEnv) (proposal : DealProposal)
    (receiver : Nat) (legacy : Bool) (baseCid : Nat) (enc : List Nat)
    (hcid : proposal.payloadCID = baseCid)
    (hsel : enc = if proposal.selectorSpecified then proposal.selectorRaw
      else allSelectorBytes) :
    validatePull env true proposal receiver legacy baseCid (.ok enc) =
      ⟨none, none, none, false⟩ := by
  simp [validatePull, hcid, hsel]

/-- Witness for `validatePull_restart_noop` on a well-formed restart. -/
theorem validatePull_restart_noop_witness :
    validatePull envV0 true prop0 0 false 5 (.ok allSelectorBytes) =
      ⟨none, none, none, false⟩ :=
  validatePull_restart_noop envV0 prop0 0 false 5 allSelectorBytes rfl rfl

/-- C3 counterexample: with the ask publishing unseal price 1 and the
proposal offering unseal price 2 (which passes the parameter check), the
response's `PaymentOwed` is 2 — the proposal's price, not the ask's. -/
theorem validatePull_owed_not_ask_price :
    askC3.unsealPrice = 1 ∧
    ((validatePull envV0 false propC3 0 false 5 (.ok allSelectorBytes)).response.map
      fun r => (r.status, r.paymentOwed)) =
        some (DealStatus.fundsNeededUnseal, some 2) ∧
    ¬ ((2 : Int) = askC3.unsealPrice) := by
  decide

/-- C3 (amended): a new pull request that passes validation, finds an
ask whose unseal price is positive, passes the parameter check and the
acceptance policy reaches status `FundsNeededUnseal` with `PaymentOwed`
equal to the proposal's unseal price — which is at least the ask's
published price, and equals it exactly when the proposal offers the
published price. -/
theorem validatePull_owed_proposal_price (env : ValidatorEnv) (proposal : DealProposal)
    (receiver : Nat) (legacy : Bool) (baseCid : Nat) (enc : List Nat)
    (mds : List MinerDeal) (pds1 : ProviderDealState) (ask : RetrievalAsk)
    (hcid : proposal.payloadCID = baseCid)
    (hsel : enc = if proposal.selectorSpecified then proposal.selectorRaw
      else allSelectorBytes)
    (hpi : env.pieceInfo = .ok mds)
    (hscan : askScan env mds (mkPds proposal receiver legacy) = (pds1, some ask))
    (hparams : CheckDealParams ask proposal.pricePerByte proposal.paymentInterval
      proposal.paymentIntervalIncrease proposal.unsealPrice = none)
    (hpolerr : env.policy.err = none) (hpolacc : env.policy.accepted = true)
    (hup : 0 < ask.unsealPrice) :
    ((validatePull env false proposal receiver legacy baseCid (.ok enc)).response.map
      fun r => (r.status, r.paymentOwed)) =
        some (DealStatus.fundsNeededUnseal, some proposal.unsealPrice) ∧
    ask.unsealPrice ≤ proposal.unsealPrice := by
  have hprop : pds1.proposal = proposal := by
    obtain ⟨c, hc⟩ := askScan_shape env mds (mkPds proposal receiver legacy)
    rw [hscan] at hc
    have hc2 : pds1 = { mkPds proposal receiver legacy with selStorageProposalCid := c } := hc
    rw [hc2]
    rfl
  have hle : ask.unsealPrice ≤ proposal.unsealPrice :=
    CheckDealParams_unseal_le ask proposal.pricePerByte proposal.paymentInterval
      proposal.paymentIntervalIncrease proposal.unsealPrice hparams
  have hgt : proposal.unsealPrice > 0 := by omega
  have hacc : acceptDeal env (mkPds proposal receiver legacy) =
      (.fundsNeededUnseal, none, pds1) := by
    simp only [acceptDeal, hpi]
    rw [hscan]
    simp only [hprop, hparams, hpolerr]
    simp [hpolacc, hgt]
  refine ⟨?_, hle⟩
  simp only [validatePull, hcid, hsel, hacc]
  cases hs : env.saveErr <;> simp [hs, hprop]

/-- Witness for `validatePull_owed_proposal_price` at a concrete ask and
proposal. -/
theorem validatePull_owed_proposal_price_witness :
    ((validatePull envV0 false propC3 0 false 5 (.ok allSelectorBytes)).response.map
      fun r => (r.status, r.paymentOwed)) =
        some (DealStatus.fundsNeededUnseal, some propC3.unsealPrice) ∧
    askC3.unsealPrice ≤ propC3.unsealPrice :=
  validatePull_owed_proposal_price envV0 propC3 0 false 5 allSelectorBytes [⟨1, 9⟩] _ askC3
    rfl rfl rfl rfl (by decide) rfl rfl (by decide)

/-- C5 counterexample: a new request that is accepted (zero unseal price)
is persisted with the status field still at its zero value `New`, not
`Accepted`. -/
theorem validatePull_accepted_saved_as_new :
    ((validatePull envVFree false prop0 0 false 5 (.ok allSelectorBytes)).response.map
      fun r => r.status) = some DealStatus.accepted ∧
    ((validatePull envVFree false prop0 0 false 5 (.ok allSelectorBytes)).savedDeal.map
      fun d => d.status) = some DealStatus.new ∧
    DealStatus.new ≠ DealStatus.accepted := by
  decide

/-- C5 (amended): a new request that passes CID and selector validation
is persisted only when `acceptDeal` reports no error (rejection and error
outcomes return without persisting); the persisted record has `TotalSent`
zero, `FundsReceived` reset to zero exactly when no unseal payment is
pending, and its status is `FundsNeededUnseal` when the proposal's unseal
price is positive and otherwise the initial zero status `New` — not
`Accepted`. -/
theorem validatePull_persistence (env : ValidatorEnv) (proposal : DealProposal)
    (receiver : Nat) (legacy : Bool) (baseCid : Nat) (enc : List Nat)
    (hcid : proposal.payloadCID = baseCid)
    (hsel : enc = if proposal.selectorSpecified then proposal.selectorRaw
      else allSelectorBytes) :
    ((acceptDeal env (mkPds proposal receiver legacy)).2.1 ≠ none →
      (validatePull env false proposal receiver legacy baseCid (.ok enc)).savedDeal = none) ∧
    ((acceptDeal env (mkPds proposal receiver legacy)).2.1 = none → env.saveErr = none →
      ∃ d, (validatePull env false proposal receiver legacy baseCid (.ok enc)).savedDeal =
          some d
        ∧ d.totalSent = 0
        ∧ d.status = (if 0 < proposal.unsealPrice then DealStatus.fundsNeededUnseal
            else DealStatus.new)
        ∧ (d.fundsReceived = some 0 ↔ ¬ 0 < proposal.unsealPrice)) := by
  obtain ⟨c, hc⟩ := acceptDeal_shape env (mkPds proposal receiver legacy)
  rcases ha : acceptDeal env (mkPds proposal receiver legacy) with ⟨st, aerr, pds1⟩
  rw [ha] at hc
  have hc2 : pds1 = { mkPds proposal receiver legacy with selStorageProposalCid := c } := hc
  constructor
  · intro hne
    cases aerr with
    | none => exact absurd rfl hne
    | some e => simp [validatePull, hcid, hsel, ha]
  · intro he hs
    cases aerr with
    | some e => exact absurd he (by simp)
    | none =>
      simp only [validatePull]
      rw [ha]
      simp only [hcid, hsel, hs, hc2, mkPds]
      simp only [ne_eq, not_true_eq_false, if_false, ite_self, ite_false, ite_true,
        Bool.false_eq_true, not_false_eq_true]
      by_cases hup : 0 < proposal.unsealPrice
      · rw [if_pos hup]
        exact ⟨_, rfl, rfl, by simp [hup], by simp [hup]⟩
      · rw [if_neg hup]
        exact ⟨_, rfl, rfl, by simp [hup], by simp [hup]⟩

/-- Witness for `validatePull_persistence` at the free-unseal oracle. -/
theorem validatePull_persistence_witness :
    ∃ d, (validatePull envVFree false prop0 0 false 5 (.ok allSelectorBytes)).savedDeal =
        some d
      ∧ d.totalSent = 0
      ∧ d.status = (if 0 < prop0.unsealPrice then DealStatus.fundsNeededUnseal
          else DealStatus.new)
      ∧ (d.fundsReceived = some 0 ↔ ¬ 0 < prop0.unsealPrice) :=
  (validatePull_persistence envVFree prop0 0 false 5 allSelectorBytes rfl rfl).2 rfl rfl

/-! ## Voucher Selector: theorems -/

theorem bestLoop_error_iff (check : SignedVoucher → Except GoErr Bool) :
    ∀ (vs : List SignedVoucher) (best : Nat → Option SignedVoucher),
    (∃ e, bestLoop check vs best = .error e) ↔ ∃ v ∈ vs, ∃ e, check v = .error e := by
  intro vs
  induction vs with
  | nil => intro best; simp [bestLoop]
  | cons v vs ih =>
    intro best
    cases hc : check v with
    | error e => simp [bestLoop, hc]
    | ok b =>
      cases b with
      | false => simpa [bestLoop, hc] using ih best
      | true =>
        cases hbl : best v.lane with
        | none => simpa [bestLoop, hc, hbl] using ih _
        | some u =>
          by_cases hgt : v.amount > u.amount
          · simpa [bestLoop, hc, hbl, hgt] using ih _
          · simpa [bestLoop, hc, hbl, hgt] using ih best

theorem bestLoop_ok_pointwise (check : SignedVoucher → Except GoErr Bool) :
    ∀ (vs : List SignedVoucher) (best : Nat → Option SignedVoucher),
    (∀ v ∈ vs, ∃ b, check v = .ok b) →
    ∃ m, bestLoop check vs best = .ok m ∧ ∀ l, m l = best1 check l vs (best l) := by
  intro vs
  induction vs with
  | nil => intro best _; exact ⟨best, rfl, fun l => rfl⟩
  | cons v vs ih =>
    intro best h
    obtain ⟨b, hb⟩ := h v (by simp)
    have h2 : ∀ w ∈ vs, ∃ c, check w = .ok c := fun w hw => h w (by simp [hw])
    cases b with
    | false =>
      obtain ⟨m, hm, hp⟩ := ih best h2
      have hsp : isSpendable check v = false := by simp [isSpendable, hb]
      refine ⟨m, by simpa [bestLoop, hb] using hm, fun l => ?_⟩
      rw [hp l, best1, if_neg (by simp [hsp])]
    | true =>
      have hsp : isSpendable check v = true := by simp [isSpendable, hb]
      cases hbl : best v.lane with
      | none =>
        obtain ⟨m, hm, hp⟩ := ih (fun l => if l = v.lane then some v else best l) h2
        refine ⟨m, by simpa [bestLoop, hb, hbl] using hm, fun l => ?_⟩
        rw [hp l]
        by_cases hl : l = v.lane
        · subst hl
          simp [best1, beats, hsp, hbl]
        · have hl2 : ¬ v.lane = l := fun hx => hl hx.symm
          simp [best1, hl, hl2]
      | some u =>
        by_cases hgt : v.amount > u.amount
        · obtain ⟨m, hm, hp⟩ := ih (fun l => if l = v.lane then some v else best l) h2
          refine ⟨m, by simpa [bestLoop, hb, hbl, hgt] using hm, fun l => ?_⟩
          rw [hp l]
          by_cases hl : l = v.lane
          · subst hl
            simp [best1, beats, hsp, hbl, hgt]
          · have hl2 : ¬ v.lane = l := fun hx => hl hx.symm
            simp [best1, hl, hl2]
        · obtain ⟨m, hm, hp⟩ := ih best h2
          refine ⟨m, by simpa [bestLoop, hb, hbl, hgt] using hm, fun l => ?_⟩
          rw [hp l]
          by_cases hl : l = v.lane
          · subst hl
            simp [best1, beats, hsp, hbl, hgt]
          · have hl2 : ¬ v.lane = l := fun hx => hl hx.symm
            simp [best1, hl2]

theorem best1_eq_none (check : SignedVoucher → Except GoErr Bool) (l : Nat) :
    ∀ (vs : List SignedVoucher) (b : Option SignedVoucher),
    best1 check l vs b = none ↔
      b = none ∧ ∀ v ∈ vs, ¬(v.lane = l ∧ isSpendable check v = true) := by
  intro vs
  induction vs with
  | nil => intro b; simp [best1]
  | cons v vs ih =>
    intro b
    by_cases hco : v.lane = l ∧ isSpendable check v = true ∧ beats v b = true
    · rw [best1, if_pos hco, ih]
      simp [hco.1, hco.2.1]
    · rw [best1, if_neg hco, ih]
      cases b with
      | some u => simp
      | none =>
        have hns : v.lane = l → isSpendable check v = false := by
          intro hvl
          cases hsv : isSpendable check v with
          | false => rfl
          | true => exact absurd ⟨hvl, hsv, rfl⟩ hco
        simp
        exact fun _ => hns

theorem best1_eq_some (check : SignedVoucher → Except GoErr Bool) (l : Nat) :
    ∀ (vs : List SignedVoucher) (b : Option SignedVoucher) (v : SignedVoucher),
    best1 check l vs b = some v →
      (b = some v ∧ ∀ w ∈ vs, w.lane = l → isSpendable check w = true →
        w.amount ≤ v.amount) ∨
      (v.lane = l ∧ isSpendable check v = true ∧
        (∀ u, b = some u → u.amount < v.amount) ∧
        ∃ pre post, vs = pre ++ v :: post ∧
          (∀ w ∈ pre, w.lane = l → isSpendable check w = true → w.amount < v.amount) ∧
          (∀ w ∈ post, w.lane = l → isSpendable check w = true → w.amount ≤ v.amount)) := by
  intro vs
  induction vs with
  | nil =>
    intro b v h
    exact Or.inl ⟨h, by simp⟩
  | cons w vs ih =>
    intro b v h
    by_cases hco : w.lane = l ∧ isSpendable check w = true ∧ beats w b = true
    · rw [best1, if_pos hco] at h
      rcases ih (some w) v h with ⟨hbv, hmax⟩ | ⟨hlane, hsp, hb, pre, post, hsplit, hpre, hpost⟩
      · have hwv : w = v := Option.some.inj hbv
        subst hwv
        refine Or.inr ⟨hco.1, hco.2.1, ?_, [], vs, rfl, by simp, hmax⟩
        intro u hu
        have hb2 := hco.2.2
        rw [hu] at hb2
        simpa [beats] using hb2
      · refine Or.inr ⟨hlane, hsp, ?_, w :: pre, post, by rw [hsplit]; rfl, ?_, hpost⟩
        · intro u hu
          have hwlt : w.amount < v.amount := hb w rfl
          have hb2 := hco.2.2
          rw [hu] at hb2
          have huw : u.amount < w.amount := by simpa [beats] using hb2
          omega
        · intro x hx hxl hxs
          rcases List.mem_cons.mp hx with rfl | hx2
          · exact hb x rfl
          · exact hpre x hx2 hxl hxs
    · rw [best1, if_neg hco] at h
      rcases ih b v h with ⟨hbv, hmax⟩ | ⟨hlane, hsp, hb, pre, post, hsplit, hpre, hpost⟩
      · refine Or.inl ⟨hbv, ?_⟩
        intro x hx hxl hxs
        rcases List.mem_cons.mp hx with rfl | hx2
        · have hnb : ¬ beats x b = true := fun hbt => hco ⟨hxl, hxs, hbt⟩
          rw [hbv] at hnb
          have : ¬ x.amount > v.amount := by simpa [beats] using hnb
          omega
        · exact hmax x hx2 hxl hxs
      · refine Or.inr ⟨hlane, hsp, hb, w :: pre, post, by rw [hsplit]; rfl, ?_, hpost⟩
        intro x hx hxl hxs
        rcases List.mem_cons.mp hx with rfl | hx2
        · have hnb : ¬ beats x b = true := fun hbt => hco ⟨hxl, hxs, hbt⟩
          cases hbig : b with
          | none =>
            rw [hbig] at hnb
            exact absurd rfl hnb
          | some u =>
            rw [hbig] at hnb
            have h1 : ¬ x.amount > u.amount := by simpa [beats] using hnb
            have h2 : u.amount < v.amount := hb u hbig
            omega
        · exact hpre x hx2 hxl hxs

theorem bestLoop_ok_checks (check : SignedVoucher → Except GoErr Bool)
    (vs : List SignedVoucher) (best : Nat → Option SignedVoucher)
    (m : Nat → Option SignedVoucher) (h : bestLoop check vs best = .ok m) :
    ∀ v ∈ vs, ∃ b, check v = .ok b := by
  intro v hv
  cases hc : check v with
  | ok b => exact ⟨b, rfl⟩
  | error e =>
    obtain ⟨e2, he2⟩ := (bestLoop_error_iff check vs best).mpr ⟨v, hv, e, hc⟩
    rw [h] at he2
    exact absurd he2 (by simp)

/-- C9: `BestSpendableByLane` fails exactly when the voucher listing or
some voucher's spendability check fails; on success, a lane maps to
nothing exactly when it has no spendable voucher, and a lane's entry is a
spendable voucher of that lane drawn unmodified from the input list (so
vouchers are never mutated), of maximal amount among the lane's spendable
vouchers, and the first of that amount in list order. -/
theorem bestSpendableByLane_spec (env : PaychEnv) :
    ((∃ e, BestSpendableByLane env = .error e) ↔
      (∃ e, env.voucherList = .error e) ∨
      (∃ vs, env.voucherList = .ok vs ∧ ∃ v ∈ vs, ∃ e, env.checkSpendable v = .error e)) ∧
    (∀ vs m, env.voucherList = .ok vs → BestSpendableByLane env = .ok m →
      (∀ l, m l = none ↔ ∀ v ∈ vs, ¬(v.lane = l ∧ isSpendable env.checkSpendable v = true)) ∧
      (∀ l v, m l = some v → v ∈ vs ∧ v.lane = l ∧ isSpendable env.checkSpendable v = true ∧
        (∀ w ∈ vs, w.lane = l → isSpendable env.checkSpendable w = true →
          w.amount ≤ v.amount) ∧
        ∃ pre post, vs = pre ++ v :: post ∧
          ∀ w ∈ pre, w.lane = l → isSpendable env.checkSpendable w = true →
            w.amount < v.amount)) := by
  constructor
  · cases hvl : env.voucherList with
    | error e => simp [BestSpendableByLane, hvl]
    | ok vs =>
      simpa [BestSpendableByLane, hvl] using
        bestLoop_error_iff env.checkSpendable vs (fun _ => none)
  · intro vs m hvl hok
    have hok2 : bestLoop env.checkSpendable vs (fun _ => none) = .ok m := by
      simpa [BestSpendableByLane, hvl] using hok
    have hchecks := bestLoop_ok_checks env.checkSpendable vs (fun _ => none) m hok2
    obtain ⟨m2, hm2, hp⟩ := bestLoop_ok_pointwise env.checkSpendable vs (fun _ => none) hchecks
    rw [hok2] at hm2
    have hmm : m = m2 := Except.ok.inj hm2
    subst hmm
    constructor
    · intro l
      rw [hp l, best1_eq_none]
      simp
    · intro l v hml
      rw [hp l] at hml
      rcases best1_eq_some env.checkSpendable l vs none v hml with
        ⟨hbv, _⟩ | ⟨hlane, hsp, _, pre, post, hsplit, hpre, hpost⟩
      · exact absurd hbv (by simp)
      · refine ⟨by rw [hsplit]; simp, hlane, hsp, ?_, pre, post, hsplit, hpre⟩
        intro w hw hwl hws
        rw [hsplit] at hw
        rcases List.mem_append.mp hw with hw1 | hw2
        · exact le_of_lt (hpre w hw1 hwl hws)
        · rcases List.mem_cons.mp hw2 with rfl | hw3
          · exact le_refl _
          · exact hpost w hw3 hwl hws

/-- Witness for `bestSpendableByLane_spec` at the spec's test vector:
lane 1's entry is the amount-9 voucher and everything before it in the
list that is spendable in lane 1 has a smaller amount. -/
theorem bestSpendableByLane_spec_witness :
    ∃ pre post, ([⟨1, 5⟩, ⟨1, 9⟩, ⟨2, 3⟩] : List SignedVoucher) =
        pre ++ (⟨1, 9⟩ : SignedVoucher) :: post ∧
      ∀ w ∈ pre, w.lane = 1 → isSpendable envW.checkSpendable w = true →
        w.amount < (9 : Int) := by
  obtain ⟨h1, h2⟩ := (bestSpendableByLane_spec envW).2 [⟨1, 5⟩, ⟨1, 9⟩, ⟨2, 3⟩] _ rfl rfl
  obtain ⟨hmem, hlane, hsp, hmax, pre, post, hsplit, hpre⟩ := h2 1 ⟨1, 9⟩ rfl
  exact ⟨pre, post, hsplit, hpre⟩

end Droplet
